import Mathlib

/-!
Verification of the merge-gate audit evaluator (transform.py) and the
paginated, rate-limit-aware fetcher (extract.py).

Modelling conventions.
Timestamps: GitHub delivers timestamps as canonical fixed-width ISO-8601 UTC
strings (YYYY-MM-DDTHH:MM:SSZ), on which lexicographic string order coincides
with temporal order; we model an instant as a natural number and a possibly
missing, null or empty timestamp field as `none` (parse_iso maps every falsy
input to None, and the sort key default "" compares below every canonical
timestamp, matching `none` as bottom).  JSON objects are modelled as
structures whose possibly-missing or null fields are `Option`s.
-/

namespace PRAudit

/-- An instant in time (seconds); canonical ISO-8601 UTC strings are in an
order-preserving bijection with instants. -/
abbrev Timestamp := Nat

/-- Review object: fields `state` and (parsed) `submitted_at`. -/
structure Review where
  state : Option String
  submitted_at : Option Timestamp
  deriving DecidableEq, Repr

/-- One entry of combined_status.statuses: fields `context`, `state`,
`updated_at`. -/
structure Status where
  context : Option String
  state : Option String
  updated_at : Option Timestamp
  deriving DecidableEq, Repr

/-- The combined-status payload: top-level `state` plus `statuses`. -/
structure CombinedStatus where
  state : Option String
  statuses : Option (List Status)
  deriving DecidableEq, Repr

/-- A check run: fields `conclusion` and (parsed) `completed_at`. -/
structure CheckRun where
  conclusion : Option String
  completed_at : Option Timestamp
  deriving DecidableEq, Repr

/-- One element of the `checks` list of a branch-protection payload. -/
structure ProtCheck where
  context : Option String
  deriving DecidableEq, Repr

/-- Branch-protection required_status_checks payload: optional `contexts`
(list of strings) and optional `checks` (list of objects with `context`). -/
structure Protection where
  contexts : Option (List String)
  checks : Option (List ProtCheck)
  deriving DecidableEq, Repr

/-- The `pr` object of an enriched record (fields compute_row reads).
`merged_at` is the parsed merge instant, `none` when missing, null or empty. -/
structure PR where
  number : Nat
  title : Option String
  user_login : Option String
  merged_at : Option Timestamp
  base_ref : Option String
  head_ref : Option String
  head_sha : Option String
  merge_commit_sha : Option String
  deriving DecidableEq, Repr

/-- One enriched PR record (`item` in compute_row).  A field is `none` when
the key is absent, null, or (for `reviews` / `check_runs`) not a list. -/
structure Item where
  pr : PR
  reviews : Option (List Review)
  combined_status : Option CombinedStatus
  check_runs : Option (List CheckRun)
  required_status_checks : Option Protection
  deriving DecidableEq, Repr

/-- One output row of the audit CSV (compute_row result). -/
structure Row where
  number : Nat
  title : String
  author : String
  base : String
  head : String
  merge_commit : String
  merged_at : Option Timestamp
  CR_PASSED : Bool
  CHECKS_PASSED : Bool
  deriving DecidableEq, Repr

/-- Constant SUCCESS_STATES of transform.py. -/
def SUCCESS_STATES : List String := ["success"]

/-- Constant APPROVED of transform.py. -/
def APPROVED : String := "APPROVED"

/-- review_approved_before_merge (transform.py lines 38-50): the loop over
reviews returns True at the first review whose state is APPROVED and whose
submitted_at is unknown, or the merged_at is unknown, or submitted_at is
not after merged_at; falling off the loop returns False. -/
def review_approved_before_merge (reviews : List Review)
    (merged_at_dt : Option Timestamp) : Bool :=
  match reviews with
  | [] => false
  | r :: rest =>
    if r.state == some APPROVED then
      match r.submitted_at, merged_at_dt with
      | some sub, some m =>
        if sub ≤ m then true else review_approved_before_merge rest merged_at_dt
      | _, _ => true
    else review_approved_before_merge rest merged_at_dt

/-- Order-preserving dedupe, modelling list(dict.fromkeys(ctxs)): keeps the
first occurrence of each string. -/
def dedupeGo (seen : List String) : List String → List String
  | [] => []
  | x :: xs => if x ∈ seen then dedupeGo seen xs else x :: dedupeGo (x :: seen) xs

/-- Entry point of the dedupe: nothing seen yet. -/
def dedupeKeepFirst (l : List String) : List String := dedupeGo [] l

/-- required_contexts_from_protection (transform.py lines 52-67): collect the
truthy entries of `contexts`, then the truthy `context` fields of `checks`,
and de-duplicate preserving order.  The empty string stands for every falsy
element. -/
def required_contexts_from_protection (required : Option Protection) :
    List String :=
  match required with
  | none => []
  | some p =>
    let fromContexts := (p.contexts.getD []).filter (fun c => c ≠ "")
    let fromChecks := (p.checks.getD []).filterMap
      (fun c => match c.context with
        | some s => if s ≠ "" then some s else none
        | none => none)
    dedupeKeepFirst (fromContexts ++ fromChecks)

/-- The sort key of the candidate sort in latest_context_state_before_merge:
s.get("updated_at", ""), with `none` playing the role of the default "". -/
def sortKey (s : Status) : Option Timestamp := s.updated_at

/-- Comparison of sort keys: "" (here `none`) is below every timestamp,
timestamps compare temporally (equal to lexicographic order on canonical
ISO strings). -/
def tsKeyLe : Option Timestamp → Option Timestamp → Bool
  | none, _ => true
  | some _, none => false
  | some a, some b => a ≤ b

/-- Stable descending insertion of one status into an already-sorted list:
x is placed before the first element whose key is at most the key of x, so
among equal keys the earlier-seen element stays first. -/
def insertDesc (x : Status) : List Status → List Status
  | [] => [x]
  | y :: ys =>
    if tsKeyLe (sortKey y) (sortKey x) then x :: y :: ys
    else y :: insertDesc x ys

/-- candidates.sort(key=lambda s: s.get("updated_at", ""), reverse=True):
Python list.sort is stable, and with reverse=True elements with equal keys
keep their original relative order; any stable descending sort computes the
same list, here insertion sort. -/
def sortByUpdatedDesc : List Status → List Status
  | [] => []
  | x :: xs => insertDesc x (sortByUpdatedDesc xs)

/-- latest_context_state_before_merge (transform.py lines 69-84): filter the
statuses to those whose context matches, return False when none match, sort
newest-first by updated_at, and require of the head that state == success
and updated_at is not after merged_at (vacuously when either timestamp is
unknown). -/
def latest_context_state_before_merge (combined_status : CombinedStatus)
    (context : String) (merged_at_dt : Option Timestamp) : Bool :=
  let statuses := combined_status.statuses.getD []
  let candidates := statuses.filter (fun s => s.context == some context)
  if candidates.isEmpty then false
  else
    match (sortByUpdatedDesc candidates).head? with
    | none => false
    | some latest =>
      if latest.state != some "success" then false
      else
        match latest.updated_at, merged_at_dt with
        | some up, some m => up ≤ m
        | _, _ => true

/-- The conclusion test of the check-run loop: concl in
{"success", "neutral", "skipped"}; a missing conclusion (None) is not in
the set. -/
def conclusionOk : Option String → Bool
  | some c => c ∈ ["success", "neutral", "skipped"]
  | none => false

/-- The loop body of all_check_runs_passed_before_merge: break (returning
False) at the first run with an unacceptable conclusion or with
completed_at after merged_at when both instants are known. -/
def checkRunsLoop (merged_at_dt : Option Timestamp) : List CheckRun → Bool
  | [] => true
  | r :: rest =>
    if !(conclusionOk r.conclusion) then false
    else
      match r.completed_at, merged_at_dt with
      | some comp, some m =>
        if comp > m then false else checkRunsLoop merged_at_dt rest
      | _, _ => checkRunsLoop merged_at_dt rest

/-- all_check_runs_passed_before_merge (transform.py lines 86-108): a missing
or null check_runs list (`none`) and an empty list both return True;
otherwise every run must pass the conclusion and timing test. -/
def all_check_runs_passed_before_merge (runs : Option (List CheckRun))
    (merged_at_dt : Option Timestamp) : Bool :=
  match runs with
  | none => true
  | some rs =>
    match rs with
    | [] => true
    | _ :: _ => checkRunsLoop merged_at_dt rs

/-- compute_row (transform.py lines 110-162): flatten one enriched record
into a Row, computing CR_PASSED and CHECKS_PASSED (strict path when the
extracted required-context list is non-empty, fallback otherwise). -/
def compute_row (item : Item) : Row :=
  let pr := item.pr
  let merged_at_dt := pr.merged_at
  let reviews := item.reviews.getD []
  let cr_passed := review_approved_before_merge reviews merged_at_dt
  let required_ctxs := required_contexts_from_protection item.required_status_checks
  let combined_status := item.combined_status.getD ⟨none, none⟩
  let combined_state := (item.combined_status.bind (fun cs => cs.state)).getD "unknown"
  let combined_ok := combined_state ∈ SUCCESS_STATES
  let runs_ok := all_check_runs_passed_before_merge item.check_runs merged_at_dt
  let checks_passed :=
    if required_ctxs.isEmpty then combined_ok && runs_ok
    else required_ctxs.all
      (fun ctx => latest_context_state_before_merge combined_status ctx merged_at_dt)
  { number := pr.number
    title := pr.title.getD ""
    author := pr.user_login.getD ""
    base := pr.base_ref.getD ""
    head := pr.head_ref.getD ""
    merge_commit := (pr.merge_commit_sha.getD (pr.head_sha.getD ""))
    merged_at := pr.merged_at
    CR_PASSED := cr_passed
    CHECKS_PASSED := checks_passed }

/-! Embedding of extract.py: the rate-limit-aware fetcher, the window
normalizer and the paginator. -/

/-- An instant for extract.py: seconds as a signed integer (datetime
arithmetic extends before the epoch). -/
abbrev Instant := Int

/-- An HTTP response as GitHubHTTP.get inspects it: the status code, the
body text, and the X-RateLimit-Reset header (`none` when absent). -/
structure HttpResponse where
  status_code : Nat
  text : String
  rate_limit_reset : Option String
  deriving DecidableEq, Repr

/-- resp.ok of the requests library: status code below 400. -/
def respOk (r : HttpResponse) : Bool := r.status_code < 400

/-- The rate-limit test of GitHubHTTP.get (extract.py line 78):
status_code == 403 and "rate limit" occurs in the lower-cased body text
(str.lower on the ASCII bodies at hand is a character-wise map). -/
def isRateLimited (r : HttpResponse) : Bool :=
  r.status_code == 403 &&
    decide ("rate limit".data <:+: (r.text.data.map Char.toLower))

/-- The backoff factor of GitHubHTTP (a Python float, default 1.2),
abstracted to the exact non-negative rational num/den. -/
structure Backoff where
  num : Nat
  den : Nat
  deriving DecidableEq, Repr

/-- The default backoff factor 1.2 of GitHubHTTP.__init__. -/
def defaultBackoff : Backoff := ⟨6, 5⟩

/-- reset.isdigit(): a non-empty string of decimal digits. -/
def isDigits (s : String) : Bool := !s.data.isEmpty && s.data.all Char.isDigit

/-- int(reset) on a digit string: the decimal value. -/
def digitsToNat (cs : List Char) : Nat :=
  cs.foldl (fun acc c => 10 * acc + (c.toNat - 48)) 0

/-- int((attempt+1)*backoff*5), the fallback wait of the rate-limit branch
(extract.py line 81): int() on this non-negative product truncates, which
is Nat division by the denominator. -/
def fallbackWait (b : Backoff) (attempt : Nat) : Nat :=
  (attempt + 1) * b.num * 5 / b.den

/-- The wait before a rate-limited retry (extract.py lines 79-81):
max(0, int(reset) - int(time.time()) + 1) when the X-RateLimit-Reset
header is a non-empty digit string, else the fallback wait. -/
def rateLimitWaitSeconds (resp : HttpResponse) (now : Int) (b : Backoff)
    (attempt : Nat) : Int :=
  match resp.rate_limit_reset with
  | some reset =>
    if isDigits reset then max 0 ((digitsToNat reset.data : Int) - now + 1)
    else (fallbackWait b attempt : Int)
  | none => (fallbackWait b attempt : Int)

/-- The wait before a non-rate-limited retry (extract.py line 87):
int((attempt+1)*backoff). -/
def softFailWaitSeconds (b : Backoff) (attempt : Nat) : Int :=
  ((attempt + 1) * b.num / b.den : Nat)

/-- Result of a GitHubHTTP.get call: the returned response (`none` when the
loop exhausts max_retries and resp.raise_for_status raises), plus the
trace of time.sleep durations in order. -/
structure GetResult where
  result : Option HttpResponse
  sleeps : List Int
  deriving DecidableEq, Repr

/-- The retry loop of GitHubHTTP.get (extract.py lines 75-87), with
`remaining` iterations of `for attempt in range(max_retries)` left and
`attempt` the current loop index.  The fetch of iteration i observes
`responses i`.  A rate-limited response sleeps the rate-limit wait and
continues; an ok response is returned as-is; any other response sleeps the
short backoff and continues; running out of iterations raises (result
`none`). -/
def getLoop (responses : Nat → HttpResponse) (now : Int) (b : Backoff) :
    Nat → Nat → GetResult
  | 0, _ => { result := none, sleeps := [] }
  | remaining + 1, attempt =>
    let resp := responses attempt
    if isRateLimited resp then
      let rest := getLoop responses now b remaining (attempt + 1)
      { result := rest.result,
        sleeps := rateLimitWaitSeconds resp now b attempt :: rest.sleeps }
    else if respOk resp then { result := some resp, sleeps := [] }
    else
      let rest := getLoop responses now b remaining (attempt + 1)
      { result := rest.result,
        sleeps := softFailWaitSeconds b attempt :: rest.sleeps }

/-- GitHubHTTP.get (extract.py lines 69-89): run the retry loop from
attempt 0.  time.time() is modelled as the fixed instant `now`. -/
def GitHubHTTP.get (responses : Nat → HttpResponse) (now : Int) (b : Backoff)
    (max_retries : Nat) : GetResult :=
  getLoop responses now b max_retries 0

/-- timedelta(days=365) in seconds. -/
def seconds365Days : Int := 365 * 86400

/-- normalize_window (extract.py lines 35-43): the since bound defaults to
now minus 365 days, the until bound to now; explicitly given bounds pass
through.  Parsing of YYYY-MM-DD inputs and the rendering through
_to_utc_iso (strftime with format %Y-%m-%dT%H:%M:%SZ, extract.py line 25)
are absorbed into the instant representation, which canonical ISO-8601 UTC
strings are in order-preserving bijection with. -/
def normalize_window (since untl : Option Instant) (now : Instant) :
    Instant × Instant :=
  (since.getD (now - seconds365Days), untl.getD now)

/-- Modelled from the spec: the window-selection condition of main()
(src/extract.py is cut off mid-statement at the selection test on line
185, so the condition is missing from the source); per spec section 4.3 a
PR is selected iff merged_at is non-null and since <= merged_at <= until,
both ends inclusive. -/
def is_in_window (merged_at : Option Instant) (since untl : Instant) : Bool :=
  match merged_at with
  | none => false
  | some m => since ≤ m && m ≤ untl

/-- Python str.split(sep) for a one-character separator, on the character
list: "a,,b" splits to ["a", "", "b"] and "" to [""]. -/
def pySplit (sep : Char) : List Char → List (List Char)
  | [] => [[]]
  | c :: cs =>
    let rest := pySplit sep cs
    if c == sep then [] :: rest
    else
      match rest with
      | r :: rs => (c :: r) :: rs
      | [] => [[c]]

/-- Python str.strip() on the character list: drop whitespace from both
ends. -/
def pyStrip (cs : List Char) : List Char :=
  ((cs.dropWhile Char.isWhitespace).reverse.dropWhile Char.isWhitespace).reverse

/-- lstrip("<") followed by rstrip(">") on the character list: drop every
leading angle-open and every trailing angle-close character. -/
def stripAngles (cs : List Char) : List Char :=
  ((cs.dropWhile (fun c => c == '<')).reverse.dropWhile (fun c => c == '>')).reverse

/-- The loop of parse_next_link over the comma-separated parts of the Link
header: split each part on ";", strip surrounding whitespace, and return
the angle-stripped first segment of the first part whose second segment is
rel="next". -/
def findNextPart : List (List Char) → Option String
  | [] => none
  | part :: rest =>
    let segs := (pySplit ';' part).map pyStrip
    match segs with
    | s0 :: s1 :: _ =>
      if s1 = "rel=\"next\"".data then some (String.mk (stripAngles s0))
      else findNextPart rest
    | _ => findNextPart rest

/-- parse_next_link (extract.py lines 92-103): a falsy header (absent or
empty) yields None; otherwise scan the comma-separated parts for the one
tagged rel="next". -/
def parse_next_link (link_header : Option String) : Option String :=
  match link_header with
  | none => none
  | some h => if h = "" then none else findNextPart (pySplit ',' h.data)

/-- One page response of the PR-listing endpoint: the JSON payload (the
list of PR objects, abstracted as a type parameter) and the Link header. -/
structure PageResponse (α : Type) where
  payload : α
  link : Option String
  deriving DecidableEq, Repr

/-- The while loop of list_closed_pr_pages (extract.py lines 113-118),
instrumented: the server maps a url to its response; the result is the
list of yielded (page_idx, payload) pairs together with the list of
fetched urls in order — one fetch per yield, each page handed to the
caller before the next url is fetched.  `fuel` bounds the number of
iterations so the model is total; the loop itself stops when
parse_next_link returns None. -/
def pagesLoop {α : Type} (server : String → PageResponse α) :
    Nat → String → Nat → List (Nat × α) × List String
  | 0, _, _ => ([], [])
  | fuel + 1, url, page_idx =>
    let resp := server url
    let rest :=
      match parse_next_link resp.link with
      | some next_url => pagesLoop server fuel next_url (page_idx + 1)
      | none => ([], [])
    ((page_idx, resp.payload) :: rest.1, url :: rest.2)

/-- list_closed_pr_pages (extract.py lines 105-118): run the page loop from
page index 1 at the initial url. -/
def list_closed_pr_pages {α : Type} (server : String → PageResponse α)
    (fuel : Nat) (url : String) : List (Nat × α) × List String :=
  pagesLoop server fuel url 1

/-! Derived and specification-side definitions used by the theorems. -/

/-- The per-review acceptance test of review_approved_before_merge as a
single predicate: state APPROVED, and submitted-at not after merged-at
whenever both instants are known. -/
def reviewPasses (merged_at_dt : Option Timestamp) (r : Review) : Bool :=
  r.state == some APPROVED &&
    match r.submitted_at, merged_at_dt with
    | some sub, some m => sub ≤ m
    | _, _ => true

/-- Strict order on sort keys. -/
def tsKeyLt (a b : Option Timestamp) : Bool := tsKeyLe a b && !(tsKeyLe b a)

/-- The status entries matching one required context. -/
def contextCandidates (combined_status : CombinedStatus) (context : String) :
    List Status :=
  (combined_status.statuses.getD []).filter (fun s => s.context == some context)

/-- The first-seen entry with the greatest updated-at key. -/
def firstMaxByUpdated : List Status → Option Status
  | [] => none
  | x :: xs =>
    match firstMaxByUpdated xs with
    | none => some x
    | some y => if tsKeyLt (sortKey x) (sortKey y) then some y else some x

/-- The last-seen entry with the greatest updated-at key. -/
def lastMaxByUpdated : List Status → Option Status
  | [] => none
  | x :: xs =>
    match lastMaxByUpdated xs with
    | none => some x
    | some y => if tsKeyLe (sortKey x) (sortKey y) then some y else some x

/-- The requirement on the selected entry of the strict path: an entry was
selected, its state is success, and its updated-at is not after merged-at
when both instants are known. -/
def latestEntryOk (selected : Option Status) (merged_at_dt : Option Timestamp) :
    Bool :=
  match selected with
  | none => false
  | some latest =>
    if latest.state != some "success" then false
    else
      match latest.updated_at, merged_at_dt with
      | some up, some m => up ≤ m
      | _, _ => true

/-- Specification-side variant of the strict-path evaluator following the
words of the spec: among the matching entries the one with the latest
updated-at is selected with ties broken by last-seen order (among equal
updated-at values the entry appearing later in the statuses list wins). -/
def lastSeenLatestContextState (combined_status : CombinedStatus)
    (context : String) (merged_at_dt : Option Timestamp) : Bool :=
  latestEntryOk (lastMaxByUpdated (contextCandidates combined_status context))
    merged_at_dt

/-- The index of the first ok response in the attempt window, if any:
the specification-side view of the retry loop, every response consuming
one attempt. -/
def firstOkIndex (responses : Nat → HttpResponse) : Nat → Nat → Option Nat
  | 0, _ => none
  | remaining + 1, attempt =>
    if respOk (responses attempt) then some attempt
    else firstOkIndex responses remaining (attempt + 1)

/-! Concrete data for witnesses and counterexamples. -/

/-- A combined status holding two entries for context ci that share
updated-at 50: the earlier one successful, the later one failed. -/
def exTieCS : CombinedStatus :=
  { state := some "success",
    statuses := some
      [ { context := some "ci", state := some "success", updated_at := some 50 },
        { context := some "ci", state := some "failure", updated_at := some 50 } ] }

/-- An approving review submitted at instant 3. -/
def exApprovedReview : Review := { state := some APPROVED, submitted_at := some 3 }

/-- A commenting review submitted at instant 1. -/
def exCommentReview : Review := { state := some "COMMENTED", submitted_at := some 1 }

/-- A PR merged at instant 100. -/
def exPRMergedAt100 : PR :=
  { number := 42, title := some "t", user_login := some "u",
    merged_at := some 100, base_ref := some "main", head_ref := some "f",
    head_sha := some "h", merge_commit_sha := some "m" }

/-- An enriched record whose branch protection requires context ci while
the combined status holds no matching entry. -/
def exItemMissingCtx : Item :=
  { pr := exPRMergedAt100, reviews := some [exApprovedReview],
    combined_status := some { state := some "success", statuses := some [] },
    check_runs := some [],
    required_status_checks := some { contexts := some ["ci"], checks := none } }

/-- An enriched record with no review, no visible branch protection, a
successful combined state and no check run (the fallback scenario of the
spec that passes vacuously). -/
def exItemFallback : Item :=
  { pr := exPRMergedAt100, reviews := none,
    combined_status := some { state := some "success", statuses := none },
    check_runs := none, required_status_checks := none }

/-- A strict-path record: required context ci with one successful matching
entry, an empty check-run list and a successful combined state. -/
def exItemStrictA : Item :=
  { pr := exPRMergedAt100, reviews := some [],
    combined_status := some
      { state := some "success",
        statuses := some [⟨some "ci", some "success", some 50⟩] },
    check_runs := some [],
    required_status_checks := some { contexts := some ["ci"], checks := none } }

/-- The same record with a failed combined-state field and a failed
check run: only the two components the strict path ignores differ. -/
def exItemStrictB : Item :=
  { exItemStrictA with
    combined_status := some
      { state := some "failure",
        statuses := some [⟨some "ci", some "success", some 50⟩] },
    check_runs := some [⟨some "failure", some 200⟩] }

/-- A rate-limited response without a reset header. -/
def exRateLimitedResp : HttpResponse :=
  { status_code := 403, text := "API rate limit exceeded",
    rate_limit_reset := none }

/-- A successful response. -/
def exOkResp : HttpResponse :=
  { status_code := 200, text := "ok", rate_limit_reset := none }

/-- A response sequence whose first three answers are rate-limited and
whose fourth is successful. -/
def exRLResponses : Nat → HttpResponse :=
  fun i => if i < 3 then exRateLimitedResp else exOkResp

/-- A three-page server: pages 1 and 2 carry a rel="next" link entry, page
3 carries a Link header without one. -/
def ex3PageServer : String → PageResponse String := fun url =>
  if url = "https://p1" then
    { payload := "page1",
      link := some "<https://p2>; rel=\"next\", <https://p9>; rel=\"last\"" }
  else if url = "https://p2" then
    { payload := "page2", link := some "<https://p3>; rel=\"next\"" }
  else
    { payload := "page3", link := some "<https://p1>; rel=\"first\"" }

/-! Helper lemmas. -/

/-- List.any is invariant under permutation. -/
theorem any_eq_of_perm {α : Type} (p : α → Bool) {l1 l2 : List α}
    (h : l1.Perm l2) : l1.any p = l2.any p := by
  induction h with
  | nil => rfl
  | cons x _ ih => simp [List.any_cons, ih]
  | swap x y l => simp [List.any_cons, ← Bool.or_assoc, Bool.or_comm]
  | trans _ _ ih1 ih2 => rw [ih1, ih2]

/-- The review loop computes the any-fold of the per-review test. -/
theorem review_approved_eq_any (l : List Review) (m : Option Timestamp) :
    review_approved_before_merge l m = l.any (reviewPasses m) := by
  induction l with
  | nil => rfl
  | cons r rest ih =>
    by_cases hs : r.state = some APPROVED
    · cases hsub : r.submitted_at with
      | none =>
        simp [review_approved_before_merge, reviewPasses, hs, hsub,
          List.any_cons]
      | some sub =>
        cases m with
        | none =>
          simp [review_approved_before_merge, reviewPasses, hs, hsub,
            List.any_cons]
        | some mm =>
          by_cases hle : sub ≤ mm <;>
            simp [review_approved_before_merge, reviewPasses, hs, hsub, hle,
              List.any_cons, ih]
    · simp [review_approved_before_merge, reviewPasses, hs, List.any_cons, ih]

/-- Unfolding of the per-review test into a proposition. -/
theorem reviewPasses_iff (m : Option Timestamp) (r : Review) :
    reviewPasses m r = true ↔
      r.state = some APPROVED ∧
        ∀ sub mm, r.submitted_at = some sub → m = some mm → sub ≤ mm := by
  unfold reviewPasses
  cases r.submitted_at <;> cases m <;>
    simp [Bool.and_eq_true, beq_iff_eq]

/-! Claim C1. -/

/-- C1: for every composite record, CR_PASSED is true iff the reviews list
contains a review whose state equals APPROVED and whose submitted-at is at
most merged-at whenever both instants are present; when either instant is
absent the approved review counts unconditionally, and without any
approved review CR_PASSED is false. -/
theorem c1_cr_passed_iff (item : Item) :
    (compute_row item).CR_PASSED = true ↔
      ∃ r ∈ item.reviews.getD [], r.state = some APPROVED ∧
        ∀ sub m, r.submitted_at = some sub → item.pr.merged_at = some m →
          sub ≤ m := by
  have hrow : (compute_row item).CR_PASSED =
      review_approved_before_merge (item.reviews.getD []) item.pr.merged_at := rfl
  rw [hrow, review_approved_eq_any, List.any_eq_true]
  simp only [reviewPasses_iff]

/-! Claim C9. -/

/-- C9: CR_PASSED is invariant under permutation of the reviews list. -/
theorem c9_cr_passed_perm_invariant (l1 l2 : List Review)
    (m : Option Timestamp) (h : l1.Perm l2) :
    review_approved_before_merge l1 m = review_approved_before_merge l2 m := by
  rw [review_approved_eq_any, review_approved_eq_any]
  exact any_eq_of_perm (reviewPasses m) h

/-- C9 witness: a concrete two-element permutation. -/
theorem c9_witness :
    ([exCommentReview, exApprovedReview] : List Review).Perm
        [exApprovedReview, exCommentReview] ∧
      review_approved_before_merge [exCommentReview, exApprovedReview] (some 5) =
        review_approved_before_merge [exApprovedReview, exCommentReview] (some 5) :=
  ⟨List.Perm.swap exApprovedReview exCommentReview [],
   c9_cr_passed_perm_invariant [exCommentReview, exApprovedReview]
     [exApprovedReview, exCommentReview] (some 5)
     (List.Perm.swap exApprovedReview exCommentReview [])⟩

/-- The sort-key comparison is total. -/
theorem tsKeyLe_total (a b : Option Timestamp) :
    tsKeyLe a b = true ∨ tsKeyLe b a = true := by
  cases a with
  | none => exact Or.inl rfl
  | some x =>
    cases b with
    | none => exact Or.inr rfl
    | some y =>
      rcases Nat.le_total x y with h | h
      · exact Or.inl (by simp [tsKeyLe, h])
      · exact Or.inr (by simp [tsKeyLe, h])

/-- The head of a stable descending insertion keeps the incoming element
exactly when its key is at least the key of the previous head. -/
theorem head?_insertDesc (x : Status) (l : List Status) :
    (insertDesc x l).head? =
      some (match l.head? with
        | none => x
        | some y => if tsKeyLe (sortKey y) (sortKey x) then x else y) := by
  cases l with
  | nil => rfl
  | cons y ys =>
    by_cases h : tsKeyLe (sortKey y) (sortKey x) = true
    · simp [insertDesc, h]
    · simp [insertDesc, h]

/-- The head of the stable descending sort is the first-seen element with
the greatest key. -/
theorem head?_sortByUpdatedDesc (l : List Status) :
    (sortByUpdatedDesc l).head? = firstMaxByUpdated l := by
  induction l with
  | nil => rfl
  | cons x xs ih =>
    rw [show sortByUpdatedDesc (x :: xs) = insertDesc x (sortByUpdatedDesc xs)
        from rfl,
      head?_insertDesc, ih]
    rw [show firstMaxByUpdated (x :: xs) =
        (match firstMaxByUpdated xs with
          | none => some x
          | some y =>
            if tsKeyLt (sortKey x) (sortKey y) then some y else some x)
        from rfl]
    cases hfm : firstMaxByUpdated xs with
    | none => rfl
    | some y =>
      by_cases h : tsKeyLe (sortKey y) (sortKey x) = true
      · simp [tsKeyLt, h]
      · have hxy : tsKeyLe (sortKey x) (sortKey y) = true :=
          (tsKeyLe_total (sortKey y) (sortKey x)).resolve_left h
        simp [tsKeyLt, h, hxy]

/-- The strict-path evaluator equals the first-seen-argmax evaluation. -/
theorem latest_context_eq (cs : CombinedStatus) (ctx : String)
    (m : Option Timestamp) :
    latest_context_state_before_merge cs ctx m =
      latestEntryOk (firstMaxByUpdated (contextCandidates cs ctx)) m := by
  suffices h : ∀ l : List Status,
      (if l.isEmpty then false
       else
         match (sortByUpdatedDesc l).head? with
         | none => false
         | some latest =>
           if latest.state != some "success" then false
           else
             match latest.updated_at, m with
             | some up, some mm => decide (up ≤ mm)
             | _, _ => true) = latestEntryOk (firstMaxByUpdated l) m by
    exact h (contextCandidates cs ctx)
  intro l
  cases l with
  | nil => rfl
  | cons a as =>
    rw [show ((a :: as : List Status).isEmpty) = false from rfl]
    rw [head?_sortByUpdatedDesc]
    rfl

/-! Claim C2. -/

/-- C2 (amended): in the strict path the evaluator selects, among the
status entries whose context equals the required name, the entry with the
latest updated-at, breaking ties by first-seen order (among equal
updated-at values the entry appearing earlier in the statuses list wins,
Python sort being stable also under reverse=True), and requires of the
selected entry that state equals success and updated-at is at most
merged-at or either instant is missing. -/
theorem c2_latest_context_selection (cs : CombinedStatus) (ctx : String)
    (m : Option Timestamp) :
    latest_context_state_before_merge cs ctx m =
      latestEntryOk (firstMaxByUpdated (contextCandidates cs ctx)) m :=
  latest_context_eq cs ctx m

/-- C2 counterexample: with two matching entries sharing updated-at 50
(the earlier successful, the later failed) and merge instant 100, the
evaluator returns true, while the selection rule worded in the claim
(ties broken by last-seen order) yields false. -/
theorem c2_counterexample :
    latest_context_state_before_merge exTieCS "ci" (some 100) = true ∧
      lastSeenLatestContextState exTieCS "ci" (some 100) = false := by
  decide

/-- The check-run loop accepts exactly when every run passes the
conclusion and timing test. -/
theorem checkRunsLoop_iff (m : Option Timestamp) (rs : List CheckRun) :
    checkRunsLoop m rs = true ↔
      ∀ r ∈ rs, conclusionOk r.conclusion = true ∧
        ∀ c mm, r.completed_at = some c → m = some mm → c ≤ mm := by
  induction rs with
  | nil => simp [checkRunsLoop]
  | cons r rest ih =>
    rw [List.forall_mem_cons, ← ih]
    by_cases hc : conclusionOk r.conclusion = true
    · cases hcomp : r.completed_at with
      | none => simp [checkRunsLoop, hc, hcomp]
      | some c =>
        cases m with
        | none => simp [checkRunsLoop, hc, hcomp]
        | some mm =>
          by_cases hlt : mm < c
          · rw [show checkRunsLoop (some mm) (r :: rest) = false from by
              simp [checkRunsLoop, hc, hcomp, hlt]]
            simp only [Bool.false_eq_true, false_iff]
            rintro ⟨⟨-, htm⟩, -⟩
            exact absurd (htm c mm rfl rfl) (Nat.not_le.mpr hlt)
          · simp [checkRunsLoop, hc, hcomp, hlt, Nat.not_lt.mp hlt]
    · simp [checkRunsLoop, hc]

/-- all_check_runs_passed_before_merge accepts exactly when every run of
the (possibly absent, then empty) list passes. -/
theorem all_check_runs_iff (runs : Option (List CheckRun))
    (m : Option Timestamp) :
    all_check_runs_passed_before_merge runs m = true ↔
      ∀ r ∈ runs.getD [], conclusionOk r.conclusion = true ∧
        ∀ c mm, r.completed_at = some c → m = some mm → c ≤ mm := by
  cases runs with
  | none => simp [all_check_runs_passed_before_merge]
  | some rs =>
    cases rs with
    | nil => simp [all_check_runs_passed_before_merge]
    | cons r rest =>
      rw [show all_check_runs_passed_before_merge (some (r :: rest)) m =
          checkRunsLoop m (r :: rest) from rfl]
      rw [show ((some (r :: rest) : Option (List CheckRun)).getD []) =
          r :: rest from rfl]
      exact checkRunsLoop_iff m (r :: rest)

/-- CHECKS_PASSED of compute_row, written as the two-path conditional. -/
theorem compute_row_checks_passed (item : Item) :
    (compute_row item).CHECKS_PASSED =
      (if (required_contexts_from_protection item.required_status_checks).isEmpty
       then
        decide ((item.combined_status.bind (fun cs => cs.state)).getD "unknown"
            ∈ SUCCESS_STATES) &&
          all_check_runs_passed_before_merge item.check_runs item.pr.merged_at
       else
        (required_contexts_from_protection item.required_status_checks).all
          (fun ctx => latest_context_state_before_merge
            (item.combined_status.getD ⟨none, none⟩) ctx item.pr.merged_at)) :=
  rfl

/-- The combined-state test succeeds exactly on a present success state. -/
theorem combined_ok_iff (o : Option String) :
    (o.getD "unknown" ∈ SUCCESS_STATES) ↔ o = some "success" := by
  cases o with
  | none => decide
  | some s => simp [SUCCESS_STATES]

/-! Claim C3. -/

/-- C3: when the extracted required-context list is empty, CHECKS_PASSED
is the conjunction of the combined-status top-level state being success
and every check run having an acceptable conclusion and, when both
instants are present, completed-at at most merged-at (vacuously true on an
empty or absent check-run list); when the extracted list is non-empty the
strict path is evaluated instead, so the fallback activates exactly on an
absent or empty required-context list. -/
theorem c3_fallback_path (item : Item) :
    (required_contexts_from_protection item.required_status_checks = [] →
      ((compute_row item).CHECKS_PASSED = true ↔
        item.combined_status.bind (fun cs => cs.state) = some "success" ∧
          ∀ r ∈ item.check_runs.getD [], conclusionOk r.conclusion = true ∧
            ∀ c mm, r.completed_at = some c → item.pr.merged_at = some mm →
              c ≤ mm)) ∧
    (required_contexts_from_protection item.required_status_checks ≠ [] →
      (compute_row item).CHECKS_PASSED =
        (required_contexts_from_protection item.required_status_checks).all
          (fun ctx => latest_context_state_before_merge
            (item.combined_status.getD ⟨none, none⟩) ctx
            item.pr.merged_at)) := by
  constructor
  · intro hempty
    rw [compute_row_checks_passed, hempty]
    simp only [List.isEmpty_nil, if_true]
    rw [Bool.and_eq_true, decide_eq_true_eq, all_check_runs_iff,
      combined_ok_iff]
  · intro hne
    rw [compute_row_checks_passed]
    have hb : (required_contexts_from_protection
        item.required_status_checks).isEmpty = false := by
      cases hreq : required_contexts_from_protection
          item.required_status_checks with
      | nil => exact absurd hreq hne
      | cons a as => rfl
    rw [hb]
    simp only [Bool.false_eq_true, if_false]

/-- C3 witness: the fallback scenario of the spec (no review, protection
unavailable, successful combined state, no check run) passes the checks
gate. -/
theorem c3_witness : (compute_row exItemFallback).CHECKS_PASSED = true :=
  ((c3_fallback_path exItemFallback).1 rfl).mpr ⟨rfl, by simp [exItemFallback]⟩

/-! Claim C4. -/

/-- C4: in the strict path, a required context without any matching status
entry forces CHECKS_PASSED to false. -/
theorem c4_missing_context_fails (item : Item) (ctx : String)
    (hmem : ctx ∈ required_contexts_from_protection item.required_status_checks)
    (hnone : contextCandidates (item.combined_status.getD ⟨none, none⟩) ctx
      = []) :
    (compute_row item).CHECKS_PASSED = false := by
  rw [compute_row_checks_passed]
  have hb : (required_contexts_from_protection
      item.required_status_checks).isEmpty = false := by
    cases hreq : required_contexts_from_protection
        item.required_status_checks with
    | nil => rw [hreq] at hmem; cases hmem
    | cons a as => rfl
  rw [hb]
  simp only [Bool.false_eq_true, if_false]
  refine List.all_eq_false.mpr ⟨ctx, hmem, ?_⟩
  rw [latest_context_eq, hnone]
  exact Bool.false_ne_true

/-- C4 witness: required context ci with an empty statuses list fails. -/
theorem c4_witness :
    "ci" ∈ required_contexts_from_protection
        exItemMissingCtx.required_status_checks ∧
      contextCandidates (exItemMissingCtx.combined_status.getD ⟨none, none⟩)
        "ci" = [] ∧
      (compute_row exItemMissingCtx).CHECKS_PASSED = false :=
  ⟨by decide, by decide,
    c4_missing_context_fails exItemMissingCtx "ci" (by decide) (by decide)⟩

/-! Claim C10. -/

/-- C10: on the strict path, CHECKS_PASSED does not depend on the
check-runs payload or the combined-status top-level state: two records
agreeing on the PR, the branch-protection payload and the statuses list,
with the extracted required-context list non-empty, produce the same
CHECKS_PASSED. -/
theorem c10_strict_noninterference (item1 item2 : Item)
    (hpr : item1.pr = item2.pr)
    (hreq : item1.required_status_checks = item2.required_status_checks)
    (hst : (item1.combined_status.getD ⟨none, none⟩).statuses =
      (item2.combined_status.getD ⟨none, none⟩).statuses)
    (hne : required_contexts_from_protection item1.required_status_checks
      ≠ []) :
    (compute_row item1).CHECKS_PASSED = (compute_row item2).CHECKS_PASSED := by
  have hpoint : ∀ ctx : String,
      latest_context_state_before_merge
        (item1.combined_status.getD ⟨none, none⟩) ctx item1.pr.merged_at =
      latest_context_state_before_merge
        (item2.combined_status.getD ⟨none, none⟩) ctx item2.pr.merged_at := by
    intro ctx
    rw [latest_context_eq, latest_context_eq, hpr]
    unfold contextCandidates
    rw [hst]
  have hb : (required_contexts_from_protection
      item2.required_status_checks).isEmpty = false := by
    rw [← hreq]
    cases hreq1 : required_contexts_from_protection
        item1.required_status_checks with
    | nil => exact absurd hreq1 hne
    | cons a as => rfl
  rw [compute_row_checks_passed, compute_row_checks_passed, hreq, hb]
  simp only [Bool.false_eq_true, if_false]
  rw [funext hpoint]

/-- C10 witness: two records differing only in the check-runs payload and
the combined-state field agree on CHECKS_PASSED. -/
theorem c10_witness :
    exItemStrictA.pr = exItemStrictB.pr ∧
      exItemStrictA.required_status_checks =
        exItemStrictB.required_status_checks ∧
      (exItemStrictA.combined_status.getD ⟨none, none⟩).statuses =
        (exItemStrictB.combined_status.getD ⟨none, none⟩).statuses ∧
      required_contexts_from_protection
        exItemStrictA.required_status_checks ≠ [] ∧
      (compute_row exItemStrictA).CHECKS_PASSED =
        (compute_row exItemStrictB).CHECKS_PASSED :=
  ⟨rfl, rfl, rfl, by decide,
    c10_strict_noninterference exItemStrictA exItemStrictB rfl rfl rfl
      (by decide)⟩

/-- A rate-limited response is never ok: 403 is not below 400. -/
theorem respOk_false_of_isRateLimited (r : HttpResponse)
    (h : isRateLimited r = true) : respOk r = false := by
  unfold isRateLimited at h
  rw [Bool.and_eq_true] at h
  have h403 : r.status_code = 403 := by
    have h1 := h.1
    rwa [beq_iff_eq] at h1
  unfold respOk
  rw [h403]
  rfl

/-- The result of the retry loop is the response at the first ok index of
the attempt window. -/
theorem getLoop_result_eq (responses : Nat → HttpResponse) (now : Int)
    (b : Backoff) :
    ∀ remaining attempt,
      (getLoop responses now b remaining attempt).result =
        (firstOkIndex responses remaining attempt).map responses := by
  intro remaining
  induction remaining with
  | zero => intro attempt; rfl
  | succ rem ih =>
    intro attempt
    by_cases hrl : isRateLimited (responses attempt) = true
    · have hok := respOk_false_of_isRateLimited _ hrl
      simp [getLoop, firstOkIndex, hrl, hok, ih (attempt + 1)]
    · by_cases hok : respOk (responses attempt) = true
      · simp [getLoop, firstOkIndex, hrl, hok]
      · simp [getLoop, firstOkIndex, hrl, hok, ih (attempt + 1)]

/-- The first ok index is absent exactly when no response of the window is
ok. -/
theorem firstOkIndex_none_iff (responses : Nat → HttpResponse) :
    ∀ remaining attempt,
      (firstOkIndex responses remaining attempt = none ↔
        ∀ i, attempt ≤ i → i < attempt + remaining →
          respOk (responses i) = false) := by
  intro remaining
  induction remaining with
  | zero =>
    intro attempt
    constructor
    · intro _ i h1 h2; omega
    · intro _; rfl
  | succ rem ih =>
    intro attempt
    by_cases hok : respOk (responses attempt) = true
    · rw [show firstOkIndex responses (rem + 1) attempt = some attempt from by
        simp [firstOkIndex, hok]]
      constructor
      · intro h; cases h
      · intro h
        have := h attempt (Nat.le_refl _) (by omega)
        rw [hok] at this
        cases this
    · rw [show firstOkIndex responses (rem + 1) attempt =
          firstOkIndex responses rem (attempt + 1) from by
        simp [firstOkIndex, hok]]
      rw [ih (attempt + 1)]
      constructor
      · intro h i h1 h2
        by_cases hi : i = attempt
        · subst hi; exact Bool.eq_false_iff.mpr hok
        · exact h i (by omega) (by omega)
      · intro h i h1 h2
        exact h i (by omega) (by omega)

/-- The first ok index characterized: inside the window, ok, and every
earlier attempt of the window not ok. -/
theorem firstOkIndex_some_iff (responses : Nat → HttpResponse) :
    ∀ remaining attempt i,
      (firstOkIndex responses remaining attempt = some i ↔
        attempt ≤ i ∧ i < attempt + remaining ∧
          respOk (responses i) = true ∧
          ∀ j, attempt ≤ j → j < i → respOk (responses j) = false) := by
  intro remaining
  induction remaining with
  | zero =>
    intro attempt i
    constructor
    · intro h; cases h
    · intro ⟨h1, h2, _, _⟩; omega
  | succ rem ih =>
    intro attempt i
    by_cases hok : respOk (responses attempt) = true
    · rw [show firstOkIndex responses (rem + 1) attempt = some attempt from by
        simp [firstOkIndex, hok]]
      constructor
      · intro h
        cases h
        exact ⟨Nat.le_refl _, by omega, hok, fun j h1 h2 => by omega⟩
      · intro ⟨h1, _, _, hprev⟩
        by_cases hi : i = attempt
        · subst hi; rfl
        · have := hprev attempt (Nat.le_refl _) (by omega)
          rw [hok] at this
          cases this
    · rw [show firstOkIndex responses (rem + 1) attempt =
          firstOkIndex responses rem (attempt + 1) from by
        simp [firstOkIndex, hok]]
      rw [ih (attempt + 1) i]
      constructor
      · intro ⟨h1, h2, h3, h4⟩
        refine ⟨by omega, by omega, h3, fun j hj1 hj2 => ?_⟩
        by_cases hj : j = attempt
        · subst hj; exact Bool.eq_false_iff.mpr hok
        · exact h4 j (by omega) hj2
      · intro ⟨h1, h2, h3, h4⟩
        have hia : i ≠ attempt := by
          intro hi; subst hi; exact hok h3
        exact ⟨by omega, by omega, h3, fun j hj1 hj2 => h4 j (by omega) hj2⟩

/-! Claim C5. -/

/-- C5 (amended): GitHubHTTP.get treats rate-limited responses like every
other non-success: each consumes one of the max_retries attempts (the
continue statement advances the bounded for loop).  The call returns the
first ok response among the first max_retries responses as-is, and raises
a fatal transport error (modelled as a none result) precisely when none of
the first max_retries responses is ok. -/
theorem c5_get_retry_policy (responses : Nat → HttpResponse) (now : Int)
    (b : Backoff) (n : Nat) :
    ((GitHubHTTP.get responses now b n).result = none ↔
      ∀ i, i < n → respOk (responses i) = false) ∧
    ∀ r, ((GitHubHTTP.get responses now b n).result = some r ↔
      ∃ i, i < n ∧ respOk (responses i) = true ∧
        (∀ j, j < i → respOk (responses j) = false) ∧ r = responses i) := by
  have hres : (GitHubHTTP.get responses now b n).result =
      (firstOkIndex responses n 0).map responses :=
    getLoop_result_eq responses now b n 0
  constructor
  · rw [hres, Option.map_eq_none', firstOkIndex_none_iff]
    constructor
    · intro h i hi; exact h i (Nat.zero_le i) (by omega)
    · intro h i _ hi; exact h i (by omega)
  · intro r
    rw [hres, Option.map_eq_some']
    constructor
    · intro ⟨a, ha, hra⟩
      rw [firstOkIndex_some_iff] at ha
      exact ⟨a, by omega, ha.2.2.1,
        fun j hj => ha.2.2.2 j (Nat.zero_le j) hj, hra.symm⟩
    · intro ⟨i, h1, h2, h3, h4⟩
      refine ⟨i, ?_, h4.symm⟩
      rw [firstOkIndex_some_iff]
      exact ⟨Nat.zero_le i, by omega, h2, fun j _ hj => h3 j hj⟩

/-- C5 counterexample: three rate-limited responses followed by a success.
Only rate-limited responses are consumed before the ceiling, a success is
available at the next fetch, yet the call exhausts max_retries = 3 and
raises: rate-limited retries do consume attempts. -/
theorem c5_counterexample :
    isRateLimited (exRLResponses 0) = true ∧
      isRateLimited (exRLResponses 1) = true ∧
      isRateLimited (exRLResponses 2) = true ∧
      respOk (exRLResponses 3) = true ∧
      (GitHubHTTP.get exRLResponses 0 defaultBackoff 3).result = none := by
  decide

/-! Claim C6. -/

/-- The sleep trace of an all-rate-limited run is the pointwise rate-limit
wait over the attempt window. -/
theorem getLoop_sleeps_all_rl (responses : Nat → HttpResponse) (now : Int)
    (b : Backoff) :
    ∀ remaining attempt,
      (∀ i, attempt ≤ i → i < attempt + remaining →
        isRateLimited (responses i) = true) →
      (getLoop responses now b remaining attempt).sleeps =
        (List.range' attempt remaining).map
          (fun i => rateLimitWaitSeconds (responses i) now b i) := by
  intro remaining
  induction remaining with
  | zero => intro attempt _; rfl
  | succ rem ih =>
    intro attempt h
    have hrl : isRateLimited (responses attempt) = true :=
      h attempt (Nat.le_refl _) (by omega)
    have hrest := ih (attempt + 1) (fun i h1 h2 => h i (by omega) (by omega))
    simp [getLoop, hrl, hrest, List.range'_succ]

/-- C6 (amended): on a rate-limited response whose reset header is a digit
string, the fetcher sleeps max(0, reset - now + 1) seconds; when the
header is absent or non-numeric the fallback wait int((attempt+1)*
backoff*5) is used, which grows linearly with the attempt number: with the
default backoff 1.2 the fallback at attempt i is 6*(i+1). -/
theorem c6_rate_limit_wait (responses : Nat → HttpResponse) (now : Int)
    (b : Backoff) (n : Nat)
    (h : ∀ i, i < n → isRateLimited (responses i) = true) :
    (GitHubHTTP.get responses now b n).sleeps =
      (List.range n).map
        (fun i => rateLimitWaitSeconds (responses i) now b i) ∧
    ∀ (resp : HttpResponse) (i : Nat), resp.rate_limit_reset = none →
      rateLimitWaitSeconds resp now defaultBackoff i = 6 * (i + 1) := by
  constructor
  · rw [List.range_eq_range' n]
    exact getLoop_sleeps_all_rl responses now b n 0
      (fun i _ h2 => h i (by omega))
  · intro resp i hreset
    unfold rateLimitWaitSeconds
    rw [hreset]
    unfold fallbackWait defaultBackoff
    push_cast
    omega

/-- C6 counterexample: a run of three rate-limited responses without a
reset header sleeps 6, 12 and 18 seconds — an arithmetic progression with
constant difference 6, not a geometric one (a geometric progression would
satisfy 12 * 12 = 6 * 18): the fallback delay grows linearly, not
exponentially. -/
theorem c6_counterexample :
    (GitHubHTTP.get exRLResponses 0 defaultBackoff 3).sleeps = [6, 12, 18] ∧
      (12 - 6 : Int) = 18 - 12 ∧ ¬((12 * 12 : Int) = 6 * 18) := by
  decide

/-- C6 witness: the trace equation applied to the concrete all-rate-limited
run of three attempts. -/
theorem c6_witness :
    (GitHubHTTP.get exRLResponses 0 defaultBackoff 3).sleeps =
      (List.range 3).map
        (fun i => rateLimitWaitSeconds (exRLResponses i) 0 defaultBackoff i) :=
  (c6_rate_limit_wait exRLResponses 0 defaultBackoff 3 (by decide)).1

/-! Claim C7. -/

/-- C7: a PR is selected for enrichment iff merged_at is present and lies
inside the inclusive window; with both bounds omitted normalize_window
produces the window from now minus 365 days to now. -/
theorem c7_window_selection (m : Option Instant) (s u now : Instant) :
    (is_in_window m s u = true ↔ ∃ t, m = some t ∧ s ≤ t ∧ t ≤ u) ∧
      normalize_window none none now = (now - 365 * 86400, now) := by
  constructor
  · cases m with
    | none => simp [is_in_window]
    | some t => simp [is_in_window]
  · rfl

/-- Boundary evaluation of the default window: the instant 365 days before
now is selected, one second after now is not, and a missing merged_at is
never selected. -/
theorem window_boundary_values :
    is_in_window (some 0)
      (normalize_window none none 31536000).1
      (normalize_window none none 31536000).2 = true ∧
    is_in_window (some 31536001)
      (normalize_window none none 31536000).1
      (normalize_window none none 31536000).2 = false ∧
    is_in_window none
      (normalize_window none none 31536000).1
      (normalize_window none none 31536000).2 = false := by
  decide

/-! Claim C8. -/

/-- The page indices of the paginator count up from the starting index. -/
theorem pagesLoop_indices {α : Type} (server : String → PageResponse α) :
    ∀ fuel url page_idx,
      ((pagesLoop server fuel url page_idx).1).map Prod.fst =
        List.range' page_idx ((pagesLoop server fuel url page_idx).1).length := by
  intro fuel
  induction fuel with
  | zero => intro url page_idx; rfl
  | succ f ih =>
    intro url page_idx
    cases hnext : parse_next_link (server url).link with
    | none => simp [pagesLoop, hnext, List.range'_succ]
    | some nurl => simp [pagesLoop, hnext, ih nurl (page_idx + 1), List.range'_succ]

/-- C8: the paginator yields (page-index, payload) pairs with indices
counting up from 1, fetching one page per yield, and stops at the first
response whose Link header carries no rel next entry; on the three-page
server (next links on pages 1 and 2, none on page 3) it performs exactly
the three fetches in order and stops with fuel remaining. -/
theorem c8_paginator {α : Type} (server : String → PageResponse α)
    (fuel : Nat) (url : String) :
    ((list_closed_pr_pages server fuel url).1).map Prod.fst =
      List.range' 1 ((list_closed_pr_pages server fuel url).1).length ∧
    list_closed_pr_pages ex3PageServer 10 "https://p1" =
      ([(1, "page1"), (2, "page2"), (3, "page3")],
        ["https://p1", "https://p2", "https://p3"]) :=
  ⟨pagesLoop_indices server fuel url 1, by decide⟩

end PRAudit
